import Mathlib

/-!
Verification of the pandora task/report status model and the Extractor
worker's bounded container extraction, embedded from the Python sources
(`pandora/helpers.py`, `pandora/task.py`, `pandora/workers/extractor.py`).

Machine integers do not occur in the relevant code paths; Python ints are
modelled as `Nat`/`Int`.  Python exceptions are modelled with `Except`.
-/

namespace pandora

/-- The `Status` enumeration from `pandora/helpers.py` lines 24-41: an
`IntEnum` whose members are numbered by `auto()` in declaration order.
All fourteen members are present, including the deprecated `DEACTIVATE`
and `OKAY`. -/
inductive Status where
  | WAITING
  | RUNNING
  | DELETED
  | NOTAPPLICABLE
  | MANUAL
  | UNKNOWN
  | DEACTIVATE
  | DISABLED
  | ERROR
  | OKAY
  | CLEAN
  | WARN
  | ALERT
  | OVERWRITE
  deriving DecidableEq, Fintype

/-- The integer value `auto()` assigns to each member, in declaration
order starting from 1.  `IntEnum` comparison and `max` use this value. -/
def Status.rank : Status → Nat
  | .WAITING => 1
  | .RUNNING => 2
  | .DELETED => 3
  | .NOTAPPLICABLE => 4
  | .MANUAL => 5
  | .UNKNOWN => 6
  | .DEACTIVATE => 7
  | .DISABLED => 8
  | .ERROR => 9
  | .OKAY => 10
  | .CLEAN => 11
  | .WARN => 12
  | .ALERT => 13
  | .OVERWRITE => 14

/-- The strict order on statuses: `IntEnum` `<` compares the integer
values. -/
def Status.lt (a b : Status) : Prop := a.rank < b.rank

instance (a b : Status) : Decidable (Status.lt a b) :=
  inferInstanceAs (Decidable (a.rank < b.rank))

/-- One step of Python's `max`: keep the current maximum unless the next
element is strictly greater (`max` keeps the earlier element on ties;
status values are distinct so ties cannot occur anyway). -/
def Status.smax (m x : Status) : Status := if m.rank < x.rank then x else m

/-- Attribute lookup on the `Status` enum class: `Status.<name>` in Python
succeeds exactly for the fourteen declared members and raises
`AttributeError` for any other name. -/
def Status.fromName : String → Option Status
  | "WAITING" => some .WAITING
  | "RUNNING" => some .RUNNING
  | "DELETED" => some .DELETED
  | "NOTAPPLICABLE" => some .NOTAPPLICABLE
  | "MANUAL" => some .MANUAL
  | "UNKNOWN" => some .UNKNOWN
  | "DEACTIVATE" => some .DEACTIVATE
  | "DISABLED" => some .DISABLED
  | "ERROR" => some .ERROR
  | "OKAY" => some .OKAY
  | "CLEAN" => some .CLEAN
  | "WARN" => some .WARN
  | "ALERT" => some .ALERT
  | "OVERWRITE" => some .OVERWRITE
  | _ => none

/-- Python exceptions that the embedded code can raise or catch. -/
inductive PyExc where
  | attributeError (name : String)
  | generic (msg : String)
  deriving DecidableEq

/-- The message `str(e)` used when an exception is interpolated into a
detail string. -/
def PyExc.str : PyExc → String
  | .attributeError n => n
  | .generic m => m

/-- Evaluating the expression `Status.<name>`: ok for declared members,
`AttributeError` otherwise. -/
def statusAttr (n : String) : Except PyExc Status :=
  match Status.fromName n with
  | some s => Except.ok s
  | none => Except.error (PyExc.attributeError n)

/-- Modelled from the spec: the `Report` record (src/pandora/report.py is
not part of the corpus; only its callers are).  Per the spec a Report
carries a status, an ordered append-only sequence of (label, value)
detail entries, an append-only but clearable key-to-value extras map, and
a started/finished flag; the status is plainly assignable by the owning
worker.  Extras values observed at the call sites are booleans. -/
structure Report where
  status : Status
  details : List (String × String)
  extras : List (String × Bool)
  is_done : Bool
  deriving DecidableEq

/-- Assignment `report.status = s`. -/
def Report.set_status (r : Report) (s : Status) : Report := { r with status := s }

/-- Call `report.add_details(label, value)`: appends one detail entry. -/
def Report.add_details (r : Report) (label value : String) : Report :=
  { r with details := r.details ++ [(label, value)] }

/-- Call `report.add_extra(key, value)`: records one extras entry. -/
def Report.add_extra (r : Report) (key : String) (value : Bool) : Report :=
  { r with extras := r.extras ++ [(key, value)] }

/-- Call `report.clear_details()`. -/
def Report.clear_details (r : Report) : Report := { r with details := [] }

/-- Call `report.clear_extras()`. -/
def Report.clear_extras (r : Report) : Report := { r with extras := [] }

/-- A `Task` from `pandora/task.py`, restricted to the state the claims
exercise: the mutable cached field `_status` (seeded by `__init__` lines
76-81 and by the setter at lines 153-155) and the per-worker reports of
the enabled workers, as returned by the `reports` property (lines
107-119, worker name paired with the stored report). -/
structure Task where
  _status : Status
  reports : List (String × Report)
  deriving DecidableEq

/-- Property `Task.workers_done` (task.py lines 121-126): true when every
enabled worker's report is finished. -/
def Task.workers_done (t : Task) : Bool :=
  t.reports.all (fun p => p.2.is_done)

/-- The `status` setter (task.py lines 153-155): stores its argument in
the `_status` field. -/
def Task.set_status (t : Task) (s : Status) : Task := { t with _status := s }

/-- Evaluation of the list literal at task.py line 137,
`[Status.DELETED, Status.ERROR, Status.ALERT, Status.WARN,
Status.SUCCESS]`: elements are evaluated left to right, so the lookup of
the undeclared name `SUCCESS` raises `AttributeError`. -/
def Task.frozenCheckList : Except PyExc (List Status) := do
  let a ← statusAttr "DELETED"
  let b ← statusAttr "ERROR"
  let c ← statusAttr "ALERT"
  let d ← statusAttr "WARN"
  let e ← statusAttr "SUCCESS"
  pure [a, b, c, d, e]

/-- The loop at task.py lines 142-145: return the first report whose
status differs from `Status.SUCCESS`; each iteration re-evaluates the
expression `Status.SUCCESS`. -/
def Task.status_loop : List (String × Report) → Except PyExc (Option Status)
  | [] => Except.ok none
  | (_, rep) :: rest => do
    let succ ← statusAttr "SUCCESS"
    if rep.status ≠ succ then pure (some rep.status) else Task.status_loop rest

/-- The `status` property getter (task.py lines 135-151).  Returns the
computed status together with the task state after the opportunistic
cache writes to `_status`. -/
def Task.status_read (t : Task) : Except PyExc (Status × Task) := do
  let frozen ← Task.frozenCheckList
  if t._status ∈ frozen then
    pure (t._status, t)
  else if t.workers_done then
    match ← Task.status_loop t.reports with
    | some s => pure (s, { t with _status := s })
    | none => do
      let succ ← statusAttr "SUCCESS"
      pure (succ, { t with _status := succ })
  else
    pure (Status.WAITING, { t with _status := Status.WAITING })

/-- Python values that can reach `make_bool` (helpers.py type hint:
`Optional[Union[bool, int, str]]`). -/
inductive PyVal where
  | none
  | bool (b : Bool)
  | int (n : Int)
  | str (s : String)
  deriving DecidableEq

/-- Numeric view used by Python `==`: `True == 1` and `False == 0`. -/
def PyVal.numView : PyVal → Option Int
  | .bool b => some (if b then 1 else 0)
  | .int n => some n
  | _ => Option.none

/-- Python equality on the values `make_bool` can receive: numeric
comparison across bool/int, structural otherwise. -/
def pyEq (a b : PyVal) : Bool :=
  match a.numView, b.numView with
  | some x, some y => x == y
  | _, _ =>
    match a, b with
    | .str s, .str t => s == t
    | .none, .none => true
    | _, _ => false

/-- `make_bool` (helpers.py lines 118-121): `value in [True, 1, "1"]`,
membership tested with Python `==`. -/
def make_bool (v : PyVal) : Bool :=
  [PyVal.bool true, PyVal.int 1, PyVal.str "1"].any (fun m => pyEq v m)

/-- `make_bool_for_redis` (helpers.py lines 124-127): `1` when the value
is the identical object `True`, else `0`. -/
def make_bool_for_redis (v : PyVal) : Int :=
  if v = PyVal.bool true then 1 else 0

/-- The Extractor worker's configuration (extractor.py lines 53-66):
`max_extracted_filesize` is the byte ceiling derived from
`max_extracted_filesize_in_mb`, `max_files_in_archive` the entry-count
limit, `max_is_error` the overflow-severity policy flag, and `passwords`
the candidate password list in force for the current task. -/
structure Extractor where
  max_files_in_archive : Nat
  max_extracted_filesize : Nat
  max_is_error : Bool
  passwords : List String

/-- The overflow severity written by every bound check:
`Status.ERROR if self.max_is_error else Status.ALERT`. -/
def Extractor.overflowStatus (w : Extractor) : Status :=
  if w.max_is_error then Status.ERROR else Status.ALERT

/-- A compressed single-member input as seen by the bz2/gzip/lzma
handlers: the file name components used to build the output name, and
the full decompressed byte stream the member expands to (of which the
handler reads at most `max_extracted_filesize + 1` bytes). -/
structure FileDesc where
  name : String
  stem : String
  suffix : String
  decompressed : List Nat

/-- Detail message `File {name} too big ({n}).` shared by the size-bound
checks. -/
def tooBigMsg (name : String) (n : Nat) : String :=
  "File " ++ name ++ " too big (" ++ toString n ++ ")."

/-- `Extractor._extract_bz2` (extractor.py lines 268-286): read at most
`max_extracted_filesize + 1` decompressed bytes; on overflow record the
configured status and a detail and extract nothing, otherwise write one
file with the decompressed bytes.  Result: (report, files written into
the destination directory as name-content pairs, returned path list). -/
def Extractor._extract_bz2 (w : Extractor) (f : FileDesc) (r : Report) :
    Report × List (String × List Nat) × List String :=
  let data := f.decompressed.take (w.max_extracted_filesize + 1)
  if data.length > w.max_extracted_filesize then
    ((r.set_status w.overflowStatus).add_details "Warning" (tooBigMsg f.name data.length),
     [], [])
  else
    let new_file_path := if f.suffix = ".bz2" then f.stem else f.name
    (r, [(new_file_path, data)], [new_file_path])

/-- `Extractor._extract_gz` (extractor.py lines 310-325): same bounded
read as `_extract_bz2`, output name stripped of a `.gz` suffix. -/
def Extractor._extract_gz (w : Extractor) (f : FileDesc) (r : Report) :
    Report × List (String × List Nat) × List String :=
  let data := f.decompressed.take (w.max_extracted_filesize + 1)
  if data.length > w.max_extracted_filesize then
    ((r.set_status w.overflowStatus).add_details "Warning" (tooBigMsg f.name data.length),
     [], [])
  else
    let new_file_path := if f.suffix = ".gz" then f.stem else f.name
    (r, [(new_file_path, data)], [new_file_path])

/-- `Extractor._extract_lzma` (extractor.py lines 327-342): same bounded
read as `_extract_bz2`, output name stripped of a `.lzma` suffix. -/
def Extractor._extract_lzma (w : Extractor) (f : FileDesc) (r : Report) :
    Report × List (String × List Nat) × List String :=
  let data := f.decompressed.take (w.max_extracted_filesize + 1)
  if data.length > w.max_extracted_filesize then
    ((r.set_status w.overflowStatus).add_details "Warning" (tooBigMsg f.name data.length),
     [], [])
  else
    let new_file_path := if f.suffix = ".lzma" then f.stem else f.name
    (r, [(new_file_path, data)], [new_file_path])

/-- One zip central-directory entry as exposed by `archive.infolist()`:
name, encryption flag bit, directory flag, declared decompressed size,
and the library's acceptance of a candidate password for this entry
(`archive.read(info, pwd=...)` succeeding rather than raising
`RuntimeError`). -/
structure ZipEntry where
  filename : String
  is_encrypted : Bool
  is_dir : Bool
  file_size : Nat
  accepts : String → Bool

/-- Warning message of the zip count bound (extractor.py line 131),
citing the total entry count and the limit. -/
def zipTooManyMsg (total limit : Nat) : String :=
  "Too many files (" ++ toString total ++ ") in the archive, stopping at " ++
    toString limit ++ "."

/-- Warning message of the zip per-entry size bound (extractor.py line
154). -/
def zipSkipMsg (e : ZipEntry) : String :=
  "Skipping file " ++ e.filename ++ ", too big (" ++ toString e.file_size ++ ")."

/-- The per-entry tail of one zip loop iteration (extractor.py lines
151-160): skip directories, skip oversize entries with the configured
overflow status and a detail, extract the rest. -/
def zipEntryBody (w : Extractor) (e : ZipEntry) (r : Report) (acc : List String) :
    Report × List String :=
  if e.is_dir then (r, acc)
  else if e.file_size > w.max_extracted_filesize then
    ((r.set_status w.overflowStatus).add_details "Warning" (zipSkipMsg e), acc)
  else (r, acc ++ [e.filename])

/-- The zip entry loop (extractor.py lines 129-160), carrying the entry
index, the found-password flag, the report and the extracted paths.
The boolean in the result records whether the loop exited via `break`
(which suppresses the `for`-`else` clause). -/
def zipLoop (w : Extractor) (total : Nat) :
    List ZipEntry → Nat → Bool → Report → List String → Report × List String × Bool
  | [], _, _, r, acc => (r, acc, false)
  | e :: rest, i, fp, r, acc =>
    if w.max_files_in_archive ≤ i then
      ((r.set_status w.overflowStatus).add_details "Warning"
        (zipTooManyMsg total w.max_files_in_archive), acc, true)
    else if e.is_encrypted && !fp then
      match w.passwords.find? (fun p => e.accepts p) with
      | Option.none =>
        ((((r.set_status Status.WARN).add_details "Warning"
            "File encrypted and unable to find password").add_extra "no_password" true),
         acc, true)
      | Option.some _ =>
        let s := zipEntryBody w e r acc
        zipLoop w total rest (i + 1) true s.1 s.2
    else
      let s := zipEntryBody w e r acc
      zipLoop w total rest (i + 1) fp s.1 s.2

/-- `Extractor._extract_zip` (extractor.py lines 125-165): run the entry
loop; when the loop finishes without `break`, the `for`-`else` clause
upgrades a still-RUNNING report to CLEAN. -/
def Extractor._extract_zip (w : Extractor) (es : List ZipEntry) (r : Report) :
    Report × List String :=
  let out := zipLoop w es.length es 0 false r []
  if out.2.2 then (out.1, out.2.1)
  else if out.1.status = Status.RUNNING then (out.1.set_status Status.CLEAN, out.2.1)
  else (out.1, out.2.1)

/-- One tar member as exposed by `tar.getmembers()`. -/
structure TarMember where
  name : String
  isfile : Bool
  size : Nat
  deriving DecidableEq

/-- Warning message of the tar count bound (extractor.py line 296),
citing the current index and the limit. -/
def tarTooManyMsg (i limit : Nat) : String :=
  "Too many files (" ++ toString i ++ "/" ++ toString limit ++ ") in the archive"

/-- The tar member loop (extractor.py lines 292-307): count bound first,
skip non-files, skip members whose size is greater than or equal to the
ceiling, extract the rest.  Note the bound is inclusive (`>=`), unlike
the strict `>` of the zip handler. -/
def tarLoop (w : Extractor) (archiveName : String) :
    List TarMember → Nat → Report → List String → Report × List String
  | [], _, r, acc => (r, acc)
  | m :: rest, i, r, acc =>
    if w.max_files_in_archive ≤ i then
      ((r.set_status w.overflowStatus).add_details "Warning"
        (tarTooManyMsg i w.max_files_in_archive), acc)
    else if !m.isfile then tarLoop w archiveName rest (i + 1) r acc
    else if m.size ≥ w.max_extracted_filesize then
      tarLoop w archiveName rest (i + 1)
        ((r.set_status w.overflowStatus).add_details "Warning" (tooBigMsg archiveName m.size))
        acc
    else tarLoop w archiveName rest (i + 1) r (acc ++ [m.name])

/-- `Extractor._extract_tar` (extractor.py lines 288-308). -/
def Extractor._extract_tar (w : Extractor) (archiveName : String) (ms : List TarMember)
    (r : Report) : Report × List String :=
  tarLoop w archiveName ms 0 r []

/-- Report transformer describing the net effect of a loop that skips
every element satisfying `p` by writing status `st` and appending one
warning detail, and leaves the report unchanged otherwise.  Used to
state what the zip/tar loops do to the report. -/
def oversizeFold (p : α → Prop) [DecidablePred p] (st : Status) (msg : α → String)
    (xs : List α) (r : Report) : Report :=
  xs.foldl (fun acc x => if p x then (acc.set_status st).add_details "Warning" (msg x) else acc) r

/-- Outcome of one mime-dispatched handler branch (extractor.py lines
366-387) on a given report: either the mutated report and the extracted
paths, or the report state at the moment an exception escaped the
branch, together with that exception. -/
inductive HandlerOutcome where
  | ok (r : Report) (extracted : List String)
  | exn (r : Report) (e : PyExc)

/-- Detail message of the catch-all at extractor.py line 390. -/
def unableMsg (fileName : String) (e : PyExc) : String :=
  "Unable to extract " ++ fileName ++ ": " ++ PyExc.str e ++ "."

/-- Detail message of the empty-extraction branch at extractor.py line
464. -/
def emptyArchiveMsg : String :=
  "Looks like the archive is empty (?). This is suspicious."

/-- Detail message added when the folded child status exceeds CLEAN
(extractor.py line 460). -/
def suspiciousChildrenMsg : String :=
  "There are suspicious files in this archive, click on the \"Extracted\" tab for more."

/-- The convergence tail of `Extractor.analyse` (extractor.py lines
453-464), modelled at the point where the polling loop at line 454 has
observed `workers_done` on every spawned child task.  With children the
report status becomes `max(t.status for t in tasks)` (each `t.status`
evaluated through `Task.status_read`); with no children the report is
degraded to WARN with an explanatory detail. -/
def Extractor.analyse_tail (tasks : List Task) (r : Report) : Except PyExc Report :=
  match tasks with
  | [] =>
    Except.ok ((r.set_status Status.WARN).add_details "Warning" emptyArchiveMsg)
  | t0 :: rest => do
    let p0 ← Task.status_read t0
    let m ← rest.foldlM (fun m t => do
      let p ← Task.status_read t
      pure (Status.smax m p.1)) p0.1
    let r1 := r.set_status m
    if Status.CLEAN.rank < m.rank then
      pure (r1.add_details "Warning" suspiciousChildrenMsg)
    else
      pure r1

/-- The archive path of `Extractor.analyse` (extractor.py lines 358-406
and 453-464) for a file that is an archive and neither an eml nor a msg:
run the mime-dispatched handler branch under the catch-all of lines
388-393 (on an exception the report is degraded to WARN with a detail
naming the failure and the `no_password` extra, and nothing is
extracted), spawn one child task per extracted path (lines 395-405),
then run the convergence tail.  Returns the final report and the spawned
children. -/
def Extractor.analyse_archive (fileName : String) (handler : Report → HandlerOutcome)
    (spawn : String → Task) (r : Report) : Except PyExc (Report × List Task) :=
  match handler r with
  | HandlerOutcome.exn r1 e =>
    let r2 := (((r1.set_status Status.WARN).add_details "Warning"
      (unableMsg fileName e)).add_extra "no_password" true)
    (Extractor.analyse_tail [] r2).map (fun rf => (rf, []))
  | HandlerOutcome.ok r1 extracted =>
    let tasks := extracted.map spawn
    (Extractor.analyse_tail tasks r1).map (fun rf => (rf, tasks))

/-- A report as the worker runner hands it to `analyse`: freshly started,
status RUNNING, nothing recorded yet. -/
def runningReport : Report :=
  { status := Status.RUNNING, details := [], extras := [], is_done := false }

/-- A finished report carrying the given status. -/
def doneReport (s : Status) : Report :=
  { status := s, details := [], extras := [], is_done := true }

/-- A task whose only enabled worker has a finished CLEAN report and
whose cached status is RUNNING (not one of the frozen values). -/
def cleanDoneTask : Task :=
  { _status := Status.RUNNING, reports := [("preview", doneReport Status.CLEAN)] }

/-- A task whose cached status is RUNNING and whose only enabled
worker's report is not finished. -/
def pendingTask : Task :=
  { _status := Status.RUNNING, reports := [("preview", runningReport)] }

/-- A task whose cached status is WAITING and whose only enabled worker
has a finished CLEAN report. -/
def waitingCleanTask : Task :=
  { _status := Status.WAITING, reports := [("preview", doneReport Status.CLEAN)] }

/-- Extractor configuration with a two-entry count limit, used to
exercise the zip count bound. -/
def wCount : Extractor :=
  { max_files_in_archive := 2, max_extracted_filesize := 100,
    max_is_error := false, passwords := [] }

/-- A plain (unencrypted, non-directory, within-ceiling) zip entry. -/
def plainEntry (nm : String) (sz : Nat) : ZipEntry :=
  { filename := nm, is_encrypted := false, is_dir := false, file_size := sz,
    accepts := fun _ => false }

/-- Three plain zip entries, one more than `wCount` allows. -/
def threeEntries : List ZipEntry :=
  [plainEntry "a.txt" 10, plainEntry "b.txt" 20, plainEntry "c.txt" 30]

/-- Extractor configuration with a 100-byte size ceiling and a roomy
count limit, used to exercise the per-entry size bound. -/
def wSize : Extractor :=
  { max_files_in_archive := 10, max_extracted_filesize := 100,
    max_is_error := false, passwords := [] }

/-- A tar member whose size is exactly the configured ceiling. -/
def boundaryMember : TarMember :=
  { name := "inner.bin", isfile := true, size := 100 }

/-- Zip entries with one oversize member, for the size-bound witness. -/
def mixedEntries : List ZipEntry :=
  [plainEntry "small.txt" 50, plainEntry "big.bin" 200]

/-- Tar members with one member at the ceiling, for the size-bound
witness. -/
def mixedMembers : List TarMember :=
  [{ name := "small.txt", isfile := true, size := 50 }, boundaryMember]

/-- C8: the Status enumeration is totally ordered by its rank, the
twelve members listed in the claim compare in the stated strict
ascending order WAITING < RUNNING < DELETED < NOTAPPLICABLE < MANUAL <
UNKNOWN < DISABLED < ERROR < CLEAN < WARN < ALERT < OVERWRITE, OVERWRITE
dominates every other status, and CLEAN ranks above ERROR and DISABLED
but below WARN and ALERT. -/
theorem status_rank_strict_order :
    (Status.lt .WAITING .RUNNING ∧ Status.lt .RUNNING .DELETED ∧
     Status.lt .DELETED .NOTAPPLICABLE ∧ Status.lt .NOTAPPLICABLE .MANUAL ∧
     Status.lt .MANUAL .UNKNOWN ∧ Status.lt .UNKNOWN .DISABLED ∧
     Status.lt .DISABLED .ERROR ∧ Status.lt .ERROR .CLEAN ∧
     Status.lt .CLEAN .WARN ∧ Status.lt .WARN .ALERT ∧
     Status.lt .ALERT .OVERWRITE)
    ∧ (∀ s : Status, s = Status.OVERWRITE ∨ Status.lt s Status.OVERWRITE)
    ∧ (∀ a b : Status, Status.lt a b ∨ a = b ∨ Status.lt b a)
    ∧ (Status.lt .DISABLED .CLEAN ∧ Status.lt .ERROR .CLEAN ∧
       Status.lt .CLEAN .WARN ∧ Status.lt .CLEAN .ALERT) := by
  decide

/-- C10: `make_bool` is true exactly on `True`, `1` and `"1"` (under
Python equality, where `True == 1`), false on everything else including
`"true"`, `"True"`, `0`, `False` and `None`, and it is a left inverse of
`make_bool_for_redis` on booleans. -/
theorem make_bool_exact_and_roundtrip :
    (∀ v : PyVal, make_bool v = true ↔
      (v = PyVal.bool true ∨ v = PyVal.int 1 ∨ v = PyVal.str "1"))
    ∧ make_bool (PyVal.bool false) = false
    ∧ make_bool (PyVal.int 0) = false
    ∧ make_bool (PyVal.str "true") = false
    ∧ make_bool (PyVal.str "True") = false
    ∧ make_bool PyVal.none = false
    ∧ (∀ b : Bool, make_bool (PyVal.int (make_bool_for_redis (PyVal.bool b))) = b) := by
  refine ⟨?_, by decide, by decide, by decide, by decide, by decide, ?_⟩
  · intro v
    cases v with
    | none => simp [make_bool, pyEq, PyVal.numView]
    | bool b => cases b <;> simp [make_bool, pyEq, PyVal.numView]
    | int n => simp [make_bool, pyEq, PyVal.numView]
    | str s => simp [make_bool, pyEq, PyVal.numView]
  · intro b
    cases b <;> decide

/-- C1: refuted by the code.  The claim says that once every enabled
worker's report is finished, reading the task status returns the
maximum-rank status among the reports (CLEAN when all are CLEAN).  In
this source, every read of the `status` property raises
`AttributeError`, because line 137 of task.py evaluates
`Status.SUCCESS` and the `Status` enum declares no member `SUCCESS`;
in particular it does so on a task whose single enabled worker has a
finished CLEAN report. -/
theorem status_read_raises_instead_of_max :
    Task.status_read cleanDoneTask = Except.error (PyExc.attributeError "SUCCESS")
    ∧ (∀ t : Task, Task.status_read t = Except.error (PyExc.attributeError "SUCCESS")) :=
  ⟨rfl, fun _ => rfl⟩

/-- C2: refuted by the code.  The claim says that with a non-frozen
cached status and at least one enabled worker's report unfinished, the
status read returns WAITING; the WAITING branch at task.py lines
148-151 is unreachable because line 137 raises `AttributeError` on the
undeclared name `Status.SUCCESS` first.  `pendingTask` has cached status
RUNNING and an unfinished report. -/
theorem status_read_raises_instead_of_waiting :
    pendingTask.workers_done = false
    ∧ Task.status_read pendingTask = Except.error (PyExc.attributeError "SUCCESS") :=
  ⟨rfl, rfl⟩

/-- C3: refuted by the code on its children branch.  With one spawned
child whose workers are all done, the convergence tail of
`Extractor.analyse` evaluates the child's `status` property, which
raises `AttributeError` on `Status.SUCCESS`, so the exception escapes
`analyse` instead of the report being finalized with the maximum child
status.  The no-children branch behaves as claimed: the report is
finalized WARN with an explanatory detail. -/
theorem converge_raises_on_children :
    cleanDoneTask.workers_done = true
    ∧ Extractor.analyse_tail [cleanDoneTask] runningReport =
        Except.error (PyExc.attributeError "SUCCESS")
    ∧ Extractor.analyse_tail [] runningReport =
        Except.ok ((runningReport.set_status Status.WARN).add_details "Warning"
          emptyArchiveMsg) :=
  ⟨rfl, rfl, rfl⟩

/-- C9: counterexample.  The claim says a task's status is never an
independently settable stored field that can drift from its reports;
but the public `status` setter (task.py lines 153-155) stores an
arbitrary status into the `_status` field of a concrete task whose only
report is finished CLEAN, leaving the reports untouched: the stored
status becomes WARN while the previous stored value was WAITING and the
reports still say CLEAN. -/
theorem status_setter_stores_independently :
    (waitingCleanTask.set_status Status.WARN)._status = Status.WARN
    ∧ waitingCleanTask._status = Status.WAITING
    ∧ (waitingCleanTask.set_status Status.WARN).reports = waitingCleanTask.reports
    ∧ waitingCleanTask.reports = [("preview", doneReport Status.CLEAN)] :=
  ⟨rfl, rfl, rfl, rfl⟩

/-- C4: each of the bz2, gzip and lzma handlers reads only the first
`max_extracted_filesize + 1` decompressed bytes (truncating the stream
there leaves the result unchanged, so declared metadata beyond it is
never trusted); when the decompressed stream is longer than the ceiling
it writes nothing, records the configured overflow status with a detail
and returns no path, and otherwise it writes exactly one file holding
the full decompressed bytes and returns that single path. -/
theorem stream_handlers_bounded :
    (∀ (w : Extractor) (f : FileDesc) (r : Report),
      Extractor._extract_bz2 w f r =
        (if w.max_extracted_filesize < f.decompressed.length then
          ((r.set_status w.overflowStatus).add_details "Warning"
            (tooBigMsg f.name (w.max_extracted_filesize + 1)), [], [])
        else
          (r, [((if f.suffix = ".bz2" then f.stem else f.name), f.decompressed)],
           [(if f.suffix = ".bz2" then f.stem else f.name)])))
    ∧ (∀ (w : Extractor) (f : FileDesc) (r : Report),
      Extractor._extract_gz w f r =
        (if w.max_extracted_filesize < f.decompressed.length then
          ((r.set_status w.overflowStatus).add_details "Warning"
            (tooBigMsg f.name (w.max_extracted_filesize + 1)), [], [])
        else
          (r, [((if f.suffix = ".gz" then f.stem else f.name), f.decompressed)],
           [(if f.suffix = ".gz" then f.stem else f.name)])))
    ∧ (∀ (w : Extractor) (f : FileDesc) (r : Report),
      Extractor._extract_lzma w f r =
        (if w.max_extracted_filesize < f.decompressed.length then
          ((r.set_status w.overflowStatus).add_details "Warning"
            (tooBigMsg f.name (w.max_extracted_filesize + 1)), [], [])
        else
          (r, [((if f.suffix = ".lzma" then f.stem else f.name), f.decompressed)],
           [(if f.suffix = ".lzma" then f.stem else f.name)])))
    ∧ (∀ (w : Extractor) (f : FileDesc) (r : Report),
      Extractor._extract_bz2 w
        { f with decompressed := f.decompressed.take (w.max_extracted_filesize + 1) } r =
        Extractor._extract_bz2 w f r)
    ∧ (∀ (w : Extractor) (f : FileDesc) (r : Report),
      Extractor._extract_gz w
        { f with decompressed := f.decompressed.take (w.max_extracted_filesize + 1) } r =
        Extractor._extract_gz w f r)
    ∧ (∀ (w : Extractor) (f : FileDesc) (r : Report),
      Extractor._extract_lzma w
        { f with decompressed := f.decompressed.take (w.max_extracted_filesize + 1) } r =
        Extractor._extract_lzma w f r) := by
  refine ⟨?_, ?_, ?_, ?_, ?_, ?_⟩ <;> intro w f r
  case _ =>
    unfold Extractor._extract_bz2
    by_cases h : w.max_extracted_filesize < f.decompressed.length
    · have hlen : (f.decompressed.take (w.max_extracted_filesize + 1)).length =
          w.max_extracted_filesize + 1 := by
        rw [List.length_take]; omega
      simp [h, hlen]
    · have htake : f.decompressed.take (w.max_extracted_filesize + 1) = f.decompressed :=
        List.take_of_length_le (by omega)
      simp [h, htake]
  case _ =>
    unfold Extractor._extract_gz
    by_cases h : w.max_extracted_filesize < f.decompressed.length
    · have hlen : (f.decompressed.take (w.max_extracted_filesize + 1)).length =
          w.max_extracted_filesize + 1 := by
        rw [List.length_take]; omega
      simp [h, hlen]
    · have htake : f.decompressed.take (w.max_extracted_filesize + 1) = f.decompressed :=
        List.take_of_length_le (by omega)
      simp [h, htake]
  case _ =>
    unfold Extractor._extract_lzma
    by_cases h : w.max_extracted_filesize < f.decompressed.length
    · have hlen : (f.decompressed.take (w.max_extracted_filesize + 1)).length =
          w.max_extracted_filesize + 1 := by
        rw [List.length_take]; omega
      simp [h, hlen]
    · have htake : f.decompressed.take (w.max_extracted_filesize + 1) = f.decompressed :=
        List.take_of_length_le (by omega)
      simp [h, htake]
  case _ =>
    unfold Extractor._extract_bz2
    simp [List.take_take]
  case _ =>
    unfold Extractor._extract_gz
    simp [List.take_take]
  case _ =>
    unfold Extractor._extract_lzma
    simp [List.take_take]

/-- The zip loop on a run of plain entries (unencrypted, non-directory,
within the size ceiling) that overruns the count limit: every entry up
to the limit is extracted, the iteration at index `max_files_in_archive`
writes the overflow status and the count detail and breaks. -/
theorem zipLoop_plain_overflow (w : Extractor) (total : Nat) :
    ∀ (es : List ZipEntry) (i : Nat) (fp : Bool) (r : Report) (acc : List String),
      es.all (fun e => !e.is_encrypted && !e.is_dir &&
        decide (e.file_size ≤ w.max_extracted_filesize)) = true →
      w.max_files_in_archive < i + es.length →
      i ≤ w.max_files_in_archive →
      zipLoop w total es i fp r acc =
        ((r.set_status w.overflowStatus).add_details "Warning"
           (zipTooManyMsg total w.max_files_in_archive),
         acc ++ ((es.take (w.max_files_in_archive - i)).map (fun e => e.filename)), true) := by
  intro es
  induction es with
  | nil =>
    intro i fp r acc _ hgt hle
    simp at hgt
    omega
  | cons e rest ih =>
    intro i fp r acc hall hgt hle
    simp only [List.all_cons, Bool.and_eq_true, Bool.not_eq_true', decide_eq_true_eq] at hall
    obtain ⟨⟨⟨henc, hdir⟩, hsz⟩, hrest⟩ := hall
    by_cases hI : w.max_files_in_archive ≤ i
    · have hieq : i = w.max_files_in_archive := by omega
    -- the loop breaks immediately at the limit
      simp only [zipLoop, hI, if_true]
      have h0 : w.max_files_in_archive - i = 0 := by omega
      simp [h0]
    · have hbody : zipEntryBody w e r acc = (r, acc ++ [e.filename]) := by
        simp [zipEntryBody, hdir, Nat.not_lt.mpr hsz]
      have hcond : (e.is_encrypted && !fp) = false := by simp [henc]
      have hrec := ih (i + 1) fp r (acc ++ [e.filename]) hrest
        (by simp only [List.length_cons] at hgt; omega) (by omega)
      have hk : w.max_files_in_archive - i = (w.max_files_in_archive - (i + 1)) + 1 := by
        omega
      simp only [zipLoop, if_neg hI, hcond, Bool.false_eq_true, if_false, hbody, hrec]
      simp [hk, List.take_succ_cons]

/-- C5: a zip archive with more plain entries than the count limit
yields exactly `max_files_in_archive` extracted paths (the first
`max_files_in_archive` entries, so enumeration stops at the limit), and
the report carries the configured overflow severity (ERROR when
`max_is_error` is set, ALERT otherwise, the suspicious-but-continue
band) with a detail citing the total entry count and the limit. -/
theorem zip_count_bound :
    ∀ (w : Extractor) (es : List ZipEntry) (r : Report),
      es.all (fun e => !e.is_encrypted && !e.is_dir &&
        decide (e.file_size ≤ w.max_extracted_filesize)) = true →
      w.max_files_in_archive < es.length →
      Extractor._extract_zip w es r =
        ((r.set_status w.overflowStatus).add_details "Warning"
           (zipTooManyMsg es.length w.max_files_in_archive),
         (es.take w.max_files_in_archive).map (fun e => e.filename))
      ∧ ((es.take w.max_files_in_archive).map (fun e => e.filename)).length =
          w.max_files_in_archive
      ∧ w.overflowStatus = (if w.max_is_error then Status.ERROR else Status.ALERT) := by
  intro w es r hall hgt
  have hloop := zipLoop_plain_overflow w es.length es 0 false r [] hall
    (by omega) (by omega)
  refine ⟨?_, ?_, rfl⟩
  · unfold Extractor._extract_zip
    rw [hloop]
    simp
  · rw [List.length_map, List.length_take]
    omega

/-- C5 witness: a three-entry archive against a two-entry limit yields
the first two paths, status ALERT and the citing detail. -/
theorem zip_count_bound_check :
    (threeEntries.all (fun e => !e.is_encrypted && !e.is_dir &&
        decide (e.file_size ≤ wCount.max_extracted_filesize)) = true)
    ∧ wCount.max_files_in_archive < threeEntries.length
    ∧ (Extractor._extract_zip wCount threeEntries runningReport =
        ((runningReport.set_status wCount.overflowStatus).add_details "Warning"
           (zipTooManyMsg threeEntries.length wCount.max_files_in_archive),
         (threeEntries.take wCount.max_files_in_archive).map (fun e => e.filename))
      ∧ ((threeEntries.take wCount.max_files_in_archive).map (fun e => e.filename)).length =
          wCount.max_files_in_archive
      ∧ wCount.overflowStatus =
          (if wCount.max_is_error then Status.ERROR else Status.ALERT)) :=
  ⟨by decide, by decide,
   zip_count_bound wCount threeEntries runningReport (by decide) (by decide)⟩

/-- The status after an oversize-skipping fold is either the original
status or the overflow status it writes. -/
theorem oversizeFold_status_cases (p : α → Prop) [DecidablePred p] (st : Status)
    (msg : α → String) :
    ∀ (xs : List α) (r : Report),
      (oversizeFold p st msg xs r).status = r.status ∨
      (oversizeFold p st msg xs r).status = st := by
  intro xs
  induction xs with
  | nil => intro r; exact Or.inl rfl
  | cons x rest ih =>
    intro r
    by_cases hx : p x
    · rcases ih ((r.set_status st).add_details "Warning" (msg x)) with h | h
      · right
        rw [oversizeFold, List.foldl_cons, if_pos hx]
        rw [oversizeFold] at h
        rw [h]
        rfl
      · right
        rw [oversizeFold, List.foldl_cons, if_pos hx]
        rw [oversizeFold] at h
        exact h
    · rcases ih r with h | h
      · left
        rw [oversizeFold, List.foldl_cons, if_neg hx]
        rw [oversizeFold] at h
        exact h
      · right
        rw [oversizeFold, List.foldl_cons, if_neg hx]
        rw [oversizeFold] at h
        exact h

/-- If some element of the fold's input satisfies the skip predicate,
the resulting status is the overflow status. -/
theorem oversizeFold_status_of_mem (p : α → Prop) [DecidablePred p] (st : Status)
    (msg : α → String) :
    ∀ (xs : List α) (r : Report) (x : α), x ∈ xs → p x →
      (oversizeFold p st msg xs r).status = st := by
  intro xs
  induction xs with
  | nil => intro r x hx; cases hx
  | cons a rest ih =>
    intro r x hx hp
    rcases List.mem_cons.mp hx with rfl | hmem
    · rw [oversizeFold, List.foldl_cons, if_pos hp]
      rcases oversizeFold_status_cases p st msg rest
        ((r.set_status st).add_details "Warning" (msg x)) with h | h
      · rw [oversizeFold] at h
        rw [h]
        rfl
      · rw [oversizeFold] at h
        exact h
    · rw [oversizeFold, List.foldl_cons]
      by_cases ha : p a
      · rw [if_pos ha]
        exact ih _ x hmem hp
      · rw [if_neg ha]
        exact ih _ x hmem hp

/-- The fold only appends detail entries. -/
theorem oversizeFold_details_mono (p : α → Prop) [DecidablePred p] (st : Status)
    (msg : α → String) :
    ∀ (xs : List α) (r : Report) (d : String × String), d ∈ r.details →
      d ∈ (oversizeFold p st msg xs r).details := by
  intro xs
  induction xs with
  | nil => intro r d hd; exact hd
  | cons a rest ih =>
    intro r d hd
    rw [oversizeFold, List.foldl_cons]
    by_cases ha : p a
    · rw [if_pos ha]
      refine ih _ d ?_
      simp [Report.add_details, Report.set_status]
      exact Or.inl hd
    · rw [if_neg ha]
      exact ih _ d hd

/-- Every skipped element's warning detail appears in the fold's
result. -/
theorem oversizeFold_details_of_mem (p : α → Prop) [DecidablePred p] (st : Status)
    (msg : α → String) :
    ∀ (xs : List α) (r : Report) (x : α), x ∈ xs → p x →
      ("Warning", msg x) ∈ (oversizeFold p st msg xs r).details := by
  intro xs
  induction xs with
  | nil => intro r x hx; cases hx
  | cons a rest ih =>
    intro r x hx hp
    rcases List.mem_cons.mp hx with rfl | hmem
    · rw [oversizeFold, List.foldl_cons, if_pos hp]
      refine oversizeFold_details_mono p st msg rest _ _ ?_
      simp [Report.add_details, Report.set_status]
    · rw [oversizeFold, List.foldl_cons]
      by_cases ha : p a
      · rw [if_pos ha]
        exact ih _ x hmem hp
      · rw [if_neg ha]
        exact ih _ x hmem hp

/-- The zip loop on unencrypted non-directory entries, all within the
count limit: no break happens, the within-ceiling entries are extracted
in order, and the report is transformed exactly by the oversize skip
fold. -/
theorem zipLoop_files_within_count (w : Extractor) (total : Nat) :
    ∀ (es : List ZipEntry) (i : Nat) (fp : Bool) (r : Report) (acc : List String),
      es.all (fun e => !e.is_encrypted && !e.is_dir) = true →
      i + es.length ≤ w.max_files_in_archive →
      zipLoop w total es i fp r acc =
        (oversizeFold (fun e => e.file_size > w.max_extracted_filesize) w.overflowStatus
           zipSkipMsg es r,
         acc ++ ((es.filter (fun e =>
           decide (e.file_size ≤ w.max_extracted_filesize))).map (fun e => e.filename)),
         false) := by
  intro es
  induction es with
  | nil =>
    intro i fp r acc _ _
    simp [zipLoop, oversizeFold]
  | cons e rest ih =>
    intro i fp r acc hall hcnt
    simp only [List.all_cons, Bool.and_eq_true, Bool.not_eq_true'] at hall
    obtain ⟨⟨henc, hdir⟩, hrest⟩ := hall
    have hI : ¬w.max_files_in_archive ≤ i := by
      simp only [List.length_cons] at hcnt
      omega
    have hcond : (e.is_encrypted && !fp) = false := by simp [henc]
    have hcnt1 : (i + 1) + rest.length ≤ w.max_files_in_archive := by
      simp only [List.length_cons] at hcnt
      omega
    by_cases hsz : e.file_size > w.max_extracted_filesize
    · have hbody : zipEntryBody w e r acc =
          ((r.set_status w.overflowStatus).add_details "Warning" (zipSkipMsg e), acc) := by
        simp [zipEntryBody, hdir, hsz]
      have hrec := ih (i + 1) fp
        ((r.set_status w.overflowStatus).add_details "Warning" (zipSkipMsg e)) acc
        hrest hcnt1
      simp only [zipLoop, if_neg hI, hcond, Bool.false_eq_true, if_false, hbody, hrec,
        oversizeFold, List.foldl_cons, if_pos hsz]
      rw [List.filter_cons_of_neg (by simp; omega)]
    · have hbody : zipEntryBody w e r acc = (r, acc ++ [e.filename]) := by
        simp [zipEntryBody, hdir, hsz]
      have hrec := ih (i + 1) fp r (acc ++ [e.filename]) hrest hcnt1
      simp only [zipLoop, if_neg hI, hcond, Bool.false_eq_true, if_false, hbody, hrec,
        oversizeFold, List.foldl_cons, if_neg hsz]
      rw [List.filter_cons_of_pos (by simp; omega)]
      simp

/-- The tar loop on regular-file members, all within the count limit:
members strictly below the ceiling are extracted in order, and the
report is transformed exactly by the (inclusive-bound) oversize skip
fold. -/
theorem tarLoop_files_within_count (w : Extractor) (nm : String) :
    ∀ (ms : List TarMember) (i : Nat) (r : Report) (acc : List String),
      ms.all (fun m => m.isfile) = true →
      i + ms.length ≤ w.max_files_in_archive →
      tarLoop w nm ms i r acc =
        (oversizeFold (fun m => m.size ≥ w.max_extracted_filesize) w.overflowStatus
           (fun m => tooBigMsg nm m.size) ms r,
         acc ++ ((ms.filter (fun m =>
           decide (m.size < w.max_extracted_filesize))).map (fun m => m.name))) := by
  intro ms
  induction ms with
  | nil =>
    intro i r acc _ _
    simp [tarLoop, oversizeFold]
  | cons m rest ih =>
    intro i r acc hall hcnt
    simp only [List.all_cons, Bool.and_eq_true] at hall
    obtain ⟨hfile, hrest⟩ := hall
    have hI : ¬w.max_files_in_archive ≤ i := by
      simp only [List.length_cons] at hcnt
      omega
    have hcnt1 : (i + 1) + rest.length ≤ w.max_files_in_archive := by
      simp only [List.length_cons] at hcnt
      omega
    have hfile1 : (!m.isfile) = false := by simp [hfile]
    by_cases hsz : m.size ≥ w.max_extracted_filesize
    · have hrec := ih (i + 1)
        ((r.set_status w.overflowStatus).add_details "Warning" (tooBigMsg nm m.size)) acc
        hrest hcnt1
      simp only [tarLoop, if_neg hI, hfile1, Bool.false_eq_true, if_false, if_pos hsz, hrec,
        oversizeFold, List.foldl_cons]
      rw [List.filter_cons_of_neg (by simp; omega)]
    · have hrec := ih (i + 1) r (acc ++ [m.name]) hrest hcnt1
      simp only [tarLoop, if_neg hI, hfile1, Bool.false_eq_true, if_false, if_neg hsz, hrec,
        oversizeFold, List.foldl_cons]
      rw [List.filter_cons_of_pos (by simp; omega)]
      simp

/-- C6: counterexample.  The claim says an entry is skipped exactly when
its decompressed size exceeds the ceiling, entries within the ceiling
being extracted.  The tar handler's bound is inclusive (extractor.py
line 300 uses `>=`): a tar member whose size equals the ceiling — hence
does not exceed it — is nevertheless skipped, contributes no extracted
path, and the report records the overflow. -/
theorem tar_ceiling_entry_skipped :
    boundaryMember.size ≤ wSize.max_extracted_filesize
    ∧ Extractor._extract_tar wSize "sample.tar" [boundaryMember] runningReport =
        ((runningReport.set_status Status.ALERT).add_details "Warning"
          (tooBigMsg "sample.tar" 100), ([] : List String)) :=
  ⟨by decide, rfl⟩

/-- C6 (amended): oversize entries are skipped with the configured
overflow status and a recorded detail while the remaining entries are
still extracted, but the boundary differs by format: the zip handler
skips an entry only when its size strictly exceeds the ceiling
(extracting entries of size equal to the ceiling), whereas the tar
handler's bound is inclusive, skipping members of size greater than or
equal to the ceiling and extracting only those strictly below it. -/
theorem entry_size_bounds :
    ∀ (w : Extractor) (es : List ZipEntry) (ms : List TarMember)
      (r1 r2 : Report) (nm : String),
      es.all (fun e => !e.is_encrypted && !e.is_dir) = true →
      es.length ≤ w.max_files_in_archive →
      ms.all (fun m => m.isfile) = true →
      ms.length ≤ w.max_files_in_archive →
      ((Extractor._extract_zip w es r1).2 =
          (es.filter (fun e => decide (e.file_size ≤ w.max_extracted_filesize))).map
            (fun e => e.filename)
        ∧ (∀ e, e ∈ es → e.file_size > w.max_extracted_filesize →
            (Extractor._extract_zip w es r1).1.status = w.overflowStatus
            ∧ ("Warning", zipSkipMsg e) ∈ (Extractor._extract_zip w es r1).1.details))
      ∧ ((Extractor._extract_tar w nm ms r2).2 =
          (ms.filter (fun m => decide (m.size < w.max_extracted_filesize))).map
            (fun m => m.name)
        ∧ (∀ m, m ∈ ms → m.size ≥ w.max_extracted_filesize →
            (Extractor._extract_tar w nm ms r2).1.status = w.overflowStatus
            ∧ ("Warning", tooBigMsg nm m.size) ∈ (Extractor._extract_tar w nm ms r2).1.details)) := by
  intro w es ms r1 r2 nm hesall heslen hmsall hmslen
  have hovnr : w.overflowStatus ≠ Status.RUNNING := by
    cases hw : w.max_is_error <;> simp [Extractor.overflowStatus, hw]
  have hzip := zipLoop_files_within_count w es.length es 0 false r1 [] hesall
    (by omega)
  have htar := tarLoop_files_within_count w nm ms 0 r2 [] hmsall (by omega)
  constructor
  · constructor
    · unfold Extractor._extract_zip
      rw [hzip]
      by_cases hrun : (oversizeFold (fun e => e.file_size > w.max_extracted_filesize)
          w.overflowStatus zipSkipMsg es r1).status = Status.RUNNING
      · simp [hrun]
      · simp [hrun]
    · intro e hmem hsz
      have hst := oversizeFold_status_of_mem
        (fun e => e.file_size > w.max_extracted_filesize) w.overflowStatus zipSkipMsg
        es r1 e hmem hsz
      have hdet := oversizeFold_details_of_mem
        (fun e => e.file_size > w.max_extracted_filesize) w.overflowStatus zipSkipMsg
        es r1 e hmem hsz
      have hexz : Extractor._extract_zip w es r1 =
          (oversizeFold (fun e => e.file_size > w.max_extracted_filesize) w.overflowStatus
             zipSkipMsg es r1,
           (es.filter (fun e => decide (e.file_size ≤ w.max_extracted_filesize))).map
             (fun e => e.filename)) := by
        unfold Extractor._extract_zip
        rw [hzip]
        simp [hst, hovnr]
      rw [hexz]
      exact ⟨hst, hdet⟩
  · constructor
    · unfold Extractor._extract_tar
      rw [htar]
      simp
    · intro m hmem hsz
      have hst := oversizeFold_status_of_mem
        (fun m => m.size ≥ w.max_extracted_filesize) w.overflowStatus
        (fun m => tooBigMsg nm m.size) ms r2 m hmem hsz
      have hdet := oversizeFold_details_of_mem
        (fun m => m.size ≥ w.max_extracted_filesize) w.overflowStatus
        (fun m => tooBigMsg nm m.size) ms r2 m hmem hsz
      have hext : Extractor._extract_tar w nm ms r2 =
          (oversizeFold (fun m => m.size ≥ w.max_extracted_filesize) w.overflowStatus
             (fun m => tooBigMsg nm m.size) ms r2,
           (ms.filter (fun m => decide (m.size < w.max_extracted_filesize))).map
             (fun m => m.name)) := by
        unfold Extractor._extract_tar
        rw [htar]
        simp
      rw [hext]
      exact ⟨hst, hdet⟩

/-- C6 witness: a zip with entries of sizes 50 and 200 against a
100-byte ceiling extracts only the small entry and records the big one;
a tar with members of sizes 50 and 100 (the ceiling) extracts only the
strictly-smaller one. -/
theorem entry_size_bounds_check :
    (mixedEntries.all (fun e => !e.is_encrypted && !e.is_dir) = true)
    ∧ mixedEntries.length ≤ wSize.max_files_in_archive
    ∧ (mixedMembers.all (fun m => m.isfile) = true)
    ∧ mixedMembers.length ≤ wSize.max_files_in_archive
    ∧ (((Extractor._extract_zip wSize mixedEntries runningReport).2 =
          (mixedEntries.filter (fun e =>
            decide (e.file_size ≤ wSize.max_extracted_filesize))).map (fun e => e.filename)
        ∧ (∀ e, e ∈ mixedEntries → e.file_size > wSize.max_extracted_filesize →
            (Extractor._extract_zip wSize mixedEntries runningReport).1.status =
              wSize.overflowStatus
            ∧ ("Warning", zipSkipMsg e) ∈
                (Extractor._extract_zip wSize mixedEntries runningReport).1.details))
      ∧ ((Extractor._extract_tar wSize "sample.tar" mixedMembers runningReport).2 =
          (mixedMembers.filter (fun m =>
            decide (m.size < wSize.max_extracted_filesize))).map (fun m => m.name)
        ∧ (∀ m, m ∈ mixedMembers → m.size ≥ wSize.max_extracted_filesize →
            (Extractor._extract_tar wSize "sample.tar" mixedMembers runningReport).1.status =
              wSize.overflowStatus
            ∧ ("Warning", tooBigMsg "sample.tar" m.size) ∈
                (Extractor._extract_tar wSize "sample.tar" mixedMembers runningReport).1.details))) :=
  ⟨by decide, by decide, by decide, by decide,
   entry_size_bounds wSize mixedEntries mixedMembers runningReport runningReport
     "sample.tar" (by decide) (by decide) (by decide) (by decide)⟩

/-- C9 (amended): the task status is backed by a stored field `_status`
with a public setter that stores its argument without consulting or
modifying the reports, so the stored status is settable independently of
the reports. -/
theorem status_setter_stores_argument :
    ∀ (t : Task) (s : Status),
      (t.set_status s)._status = s ∧ (t.set_status s).reports = t.reports :=
  fun _ _ => ⟨rfl, rfl⟩

/-- C7: whenever the mime-dispatched handler branch raises any
exception, `analyse` catches it (the result is `ok`, nothing
propagates), the final report status is WARN, a diagnostic detail naming
the failure is among the details, the `no_password` extra is set to
true, and no child task is spawned from the archive. -/
theorem analyse_catches_handler_exception :
    ∀ (fileName : String) (handler : Report → HandlerOutcome) (spawn : String → Task)
      (r hr : Report) (e : PyExc),
      handler r = HandlerOutcome.exn hr e →
      Extractor.analyse_archive fileName handler spawn r =
        Except.ok
          ((((((hr.set_status Status.WARN).add_details "Warning"
              (unableMsg fileName e)).add_extra "no_password" true).set_status
                Status.WARN).add_details "Warning" emptyArchiveMsg),
           ([] : List Task))
      ∧ ((((((hr.set_status Status.WARN).add_details "Warning"
            (unableMsg fileName e)).add_extra "no_password" true).set_status
              Status.WARN).add_details "Warning" emptyArchiveMsg)).status = Status.WARN
      ∧ ("Warning", unableMsg fileName e) ∈
          ((((((hr.set_status Status.WARN).add_details "Warning"
            (unableMsg fileName e)).add_extra "no_password" true).set_status
              Status.WARN).add_details "Warning" emptyArchiveMsg)).details
      ∧ ("no_password", true) ∈
          ((((((hr.set_status Status.WARN).add_details "Warning"
            (unableMsg fileName e)).add_extra "no_password" true).set_status
              Status.WARN).add_details "Warning" emptyArchiveMsg)).extras := by
  intro fileName handler spawn r hr e hexn
  refine ⟨?_, rfl, ?_, ?_⟩
  · unfold Extractor.analyse_archive
    rw [hexn]
    rfl
  · simp [Report.add_details, Report.add_extra, Report.set_status]
  · simp [Report.add_details, Report.add_extra, Report.set_status]

/-- C7 witness: a concrete handler that raises a generic structural
failure on a fresh RUNNING report is caught, producing the WARN report
with both details, the `no_password` extra, and no children. -/
theorem analyse_catches_handler_exception_check :
    ((fun _ : Report => HandlerOutcome.exn runningReport (PyExc.generic "Bad magic number"))
        runningReport =
      HandlerOutcome.exn runningReport (PyExc.generic "Bad magic number"))
    ∧ (Extractor.analyse_archive "corrupt.zip"
          (fun _ => HandlerOutcome.exn runningReport (PyExc.generic "Bad magic number"))
          (fun _ => pendingTask) runningReport =
        Except.ok
          ((((((runningReport.set_status Status.WARN).add_details "Warning"
              (unableMsg "corrupt.zip" (PyExc.generic "Bad magic number"))).add_extra
                "no_password" true).set_status Status.WARN).add_details "Warning"
                  emptyArchiveMsg),
           ([] : List Task))
      ∧ ((((((runningReport.set_status Status.WARN).add_details "Warning"
            (unableMsg "corrupt.zip" (PyExc.generic "Bad magic number"))).add_extra
              "no_password" true).set_status Status.WARN).add_details "Warning"
                emptyArchiveMsg)).status = Status.WARN
      ∧ ("Warning", unableMsg "corrupt.zip" (PyExc.generic "Bad magic number")) ∈
          ((((((runningReport.set_status Status.WARN).add_details "Warning"
            (unableMsg "corrupt.zip" (PyExc.generic "Bad magic number"))).add_extra
              "no_password" true).set_status Status.WARN).add_details "Warning"
                emptyArchiveMsg)).details
      ∧ ("no_password", true) ∈
          ((((((runningReport.set_status Status.WARN).add_details "Warning"
            (unableMsg "corrupt.zip" (PyExc.generic "Bad magic number"))).add_extra
              "no_password" true).set_status Status.WARN).add_details "Warning"
                emptyArchiveMsg)).extras) :=
  ⟨rfl,
   analyse_catches_handler_exception "corrupt.zip"
     (fun _ => HandlerOutcome.exn runningReport (PyExc.generic "Bad magic number"))
     (fun _ => pendingTask) runningReport runningReport
     (PyExc.generic "Bad magic number") rfl⟩

end pandora
